import Mathlib

/-!
Shallow embedding of the Christoffel menu application (`src/App.tsx`).

The application is a single-file React Native app: a menu store (an ordered
list of `MenuItem`, mutated by `addItem` / `removeItem`), a hand-rolled
navigation stack (`useSimpleStack` with `navigate` / `goBack` / `popToTop`),
pure analytics over the item collection (`computeAverages`, `overallAverage`,
the inline course filter), the chef add-item form handler (`onAdd`) and the
screen dispatcher (`renderScreen`).

JavaScript numbers are modelled by exact rationals (`ℚ`); the composite
`parseFloat(x.toFixed(2))` used by the source to round to two decimals is
modelled by `round2` (round half towards `+∞` at the second decimal, which is
what `Number.prototype.toFixed` does). `parseFloat` on raw text is modelled
faithfully to its ECMAScript grammar, including the `Infinity` literal, with
the non-finite results represented explicitly by `JsNum`.
-/

namespace ChristoffelMenu

/-- A menu item as used by the analytic functions, the store and the
navigation frames; its `price` is a finite decimal amount (`src/App.tsx`,
interface `MenuItem`). -/
structure MenuItem where
  id : String
  name : String
  course : String
  addOn : String
  price : ℚ
deriving DecidableEq

/-- The fixed course enumeration (`src/App.tsx` line 59). -/
def COURSES : List String := ["Starter", "Main", "Dessert", "Beverage"]

/-- The fixed add-on enumeration (`src/App.tsx` line 60). -/
def ADDONS : List String := ["Extra Sauce", "Salad", "Fries", "None"]

/-- Models `parseFloat(x.toFixed(2))`: round to 2 decimal places, half towards
`+∞` (the tie-breaking rule of `Number.prototype.toFixed`). -/
def round2 (q : ℚ) : ℚ := (round (q * 100) : ℚ) / 100

/-- One entry of the per-course averages table computed on the home screen. -/
structure CourseAverage where
  course : String
  average : ℚ
  count : ℕ
deriving DecidableEq

/-- The function `computeAverages` (`src/App.tsx` lines 171–180): for each fixed course,
the count of matching items and their mean price rounded to 2 decimals
(`0` when no item matches, since the source computes `0.toFixed(2)`). -/
def computeAverages (items : List MenuItem) : List CourseAverage :=
  COURSES.map fun c =>
    let l := items.filter fun it => it.course == c
    let count := l.length
    let average : ℚ := if count > 0 then (l.foldl (fun s i => s + i.price) 0) / count else 0
    ⟨c, round2 average, count⟩

/-- The function `overallAverage` (`src/App.tsx` lines 183–187): mean of all prices
rounded to 2 decimals, `0` for the empty collection. -/
def overallAverage (items : List MenuItem) : ℚ :=
  if items.length = 0 then 0
  else round2 ((items.foldl (fun s i => s + i.price) 0) / items.length)

/-- The inline course filter used by `HomeScreen` (line 194) and
`GuestFilterScreen` (line 435):
`filter === 'All' ? items : items.filter(it => it.course === filter)`. -/
def filterByCourse (items : List MenuItem) (course : String) : List MenuItem :=
  if course = "All" then items else items.filter fun it => it.course == course

/-- The store mutation `addItem` (`src/App.tsx` lines 616–618): prepend the new item. -/
def addItem (item : MenuItem) (store : List MenuItem) : List MenuItem :=
  item :: store

/-- The store mutation `removeItem` (`src/App.tsx` lines 620–622): keep the items whose id
differs from the given id. -/
def removeItem (id : String) (store : List MenuItem) : List MenuItem :=
  store.filter fun i => i.id != id

/-- The two seed items the store starts with (`src/App.tsx` lines 610–614). -/
def seedItems : List MenuItem :=
  [⟨"1", "Tomato Soup", "Starter", "", 45⟩,
   ⟨"2", "Grilled Steak", "Main", "Fries", 220⟩]

-- --- Navigation stack (`useSimpleStack`, `src/App.tsx` lines 588–604) ---

/-- The screen-name union of the source
(`type ScreenName = 'Home' | 'Chef' | 'GuestFilter' | 'SelectedCourse' |
'Payment' | 'Unknown'`); only the first five are dispatched by
`renderScreen`. -/
inductive ScreenName where
  | Home
  | Chef
  | GuestFilter
  | SelectedCourse
  | Payment
  | Unknown
deriving DecidableEq

/-- A navigation frame (`interface Route`): a screen name and an optional
item parameter (`params : { item?: MenuItem }`). -/
structure Route where
  name : ScreenName
  params : Option MenuItem
deriving DecidableEq

/-- The root frame the stack starts with
(`useSimpleStack({ name: 'Home', params: {} })`). -/
def homeRoute : Route := ⟨.Home, none⟩

/-- The operation `navigate` (line 591): append a new frame. -/
def navigate (s : List Route) (n : ScreenName) (p : Option MenuItem) : List Route :=
  s ++ [⟨n, p⟩]

/-- The operation `goBack` (lines 594–596): `prev.length > 1 ? prev.slice(0, -1) : prev`. -/
def goBack (s : List Route) : List Route :=
  if 1 < s.length then s.dropLast else s

/-- The operation `popToTop` (lines 597–599): `prev.length ? [prev[0]] : prev`. -/
def popToTop (s : List Route) : List Route :=
  match s with
  | [] => []
  | x :: _ => [x]

/-- One user navigation action. -/
inductive NavOp where
  | navigate (n : ScreenName) (p : Option MenuItem)
  | goBack
  | popToTop

/-- Apply one navigation action to the stack. -/
def navStep (s : List Route) (op : NavOp) : List Route :=
  match op with
  | .navigate n p => navigate s n p
  | .goBack => goBack s
  | .popToTop => popToTop s

/-- Run a sequence of navigation actions from the initial stack
`[{ name: 'Home', params: {} }]`. -/
def runNav (ops : List NavOp) : List Route :=
  ops.foldl navStep [homeRoute]

-- --- JavaScript `parseFloat` and the chef add-item flow (`onAdd`) ---

/-- Models `String.prototype.trim`: strip leading and trailing whitespace. -/
def jsTrim (s : String) : String :=
  ⟨((s.data.dropWhile Char.isWhitespace).reverse.dropWhile Char.isWhitespace).reverse⟩

/-- The value of a JavaScript number as produced by `parseFloat`: `NaN`,
a signed infinity, or a finite value (modelled exactly as a rational). -/
inductive JsNum where
  | nan
  | inf (neg : Bool)
  | finite (q : ℚ)
deriving DecidableEq

/-- Numeric value of a digit string (most significant first). -/
def digitsVal (ds : List Char) : ℕ :=
  ds.foldl (fun a c => 10 * a + (c.toNat - 48)) 0

/-- Split a character list into its leading decimal digits and the rest. -/
def spanDigits (cs : List Char) : List Char × List Char :=
  (cs.takeWhile Char.isDigit, cs.dropWhile Char.isDigit)

/-- Parse an optional ECMAScript `ExponentPart` (`e`/`E`, optional sign,
digits), returned as a sign flag and a magnitude; consume nothing
(exponent `0`) when no well-formed exponent follows, as `parseFloat`'s
longest-valid-prefix rule demands. -/
def parseExponent (cs : List Char) : Bool × ℕ :=
  match cs with
  | c :: rest =>
    if c = 'e' ∨ c = 'E' then
      match rest with
      | s :: rest2 =>
        if s = '+' ∨ s = '-' then
          let ds := (spanDigits rest2).1
          if ds.isEmpty then (false, 0) else (s = '-', digitsVal ds)
        else
          let ds := (spanDigits rest).1
          if ds.isEmpty then (false, 0) else (false, digitsVal ds)
      | [] => (false, 0)
    else (false, 0)
  | [] => (false, 0)

/-- Assemble the value `intPart.fracDigits × 10 ^ ±exp`. -/
def decValue (intPart : ℕ) (frac : List Char) (exp : Bool × ℕ) : ℚ :=
  let base : ℚ := (intPart : ℚ) + (digitsVal frac : ℚ) / ((10 : ℚ) ^ frac.length)
  if exp.1 then base / (10 : ℚ) ^ exp.2 else base * (10 : ℚ) ^ exp.2

/-- Parse the longest prefix of `cs` that is an unsigned ECMAScript
`StrUnsignedDecimalLiteral` without the `Infinity` keyword:
`Digits ['.' Digits?] Exponent?` or `'.' Digits Exponent?`; `none` when no
such prefix exists. -/
def parseUnsignedDec (cs : List Char) : Option ℚ :=
  let (ip, r1) := spanDigits cs
  if ip.isEmpty then
    match r1 with
    | '.' :: r2 =>
      let (fp, r3) := spanDigits r2
      if fp.isEmpty then none
      else some (decValue 0 fp (parseExponent r3))
    | _ => none
  else
    match r1 with
    | '.' :: r2 =>
      let (fp, r3) := spanDigits r2
      some (decValue (digitsVal ip) fp (parseExponent r3))
    | _ => some (decValue (digitsVal ip) [] (parseExponent r1))

/-- Parse a signed body: the `Infinity` keyword or an unsigned decimal. -/
def parseBody (cs : List Char) (neg : Bool) : JsNum :=
  if cs.take 8 = "Infinity".toList then .inf neg
  else
    match parseUnsignedDec cs with
    | some q => .finite (if neg then -q else q)
    | none => .nan

/-- ECMAScript `parseFloat`: skip leading whitespace, then parse an
optionally signed `StrDecimalLiteral` prefix; `NaN` when none exists. -/
def jsParseFloat (s : String) : JsNum :=
  match s.toList.dropWhile Char.isWhitespace with
  | '+' :: rest => parseBody rest false
  | '-' :: rest => parseBody rest true
  | cs => parseBody cs false

/-- Models `Number.isNaN`. -/
def jsIsNaN : JsNum → Bool
  | .nan => true
  | _ => false

/-- The JavaScript comparison `x < 0`: false for `NaN`, true exactly for
`-Infinity` and negative finite values. -/
def jsLtZero : JsNum → Bool
  | .nan => false
  | .inf neg => neg
  | .finite q => decide (q < 0)

/-- Models `parseFloat(x.toFixed(2))` on a general JavaScript number: rounds a
finite value to 2 decimals; `Infinity.toFixed(2)` is the string
`"Infinity"` which parses back to `Infinity`, and `NaN` round-trips to
`NaN`, so the non-finite values are fixed points. -/
def jsRound2 : JsNum → JsNum
  | .finite q => .finite (round2 q)
  | x => x

/-- A menu item exactly as the chef form constructs it: its price is the
raw JavaScript number `parseFloat(parsedPrice.toFixed(2))`, which the
source never constrains to be finite. -/
structure ChefItem where
  id : String
  name : String
  course : String
  addOn : String
  price : JsNum
deriving DecidableEq

/-- The state visible to the chef add-item flow: the four form fields
(`name`, `course`, `addOn`, `price` — the raw text), the shared menu store
and the navigation stack. -/
structure ChefState where
  name : String
  course : String
  addOn : String
  price : String
  menuItems : List ChefItem
  stack : List Route
deriving DecidableEq

/-- The submit handler `onAdd` (`src/App.tsx` lines 297–333). The result pairs the new state
with the validation alert message, `none` on success. The two early
returns surface an alert and change nothing. On success the new item is
prepended (`addItem`), the four form fields are reset to their defaults
(`''`, `''`, `ADDONS[0]`, `COURSES[0]`) and — once the user dismisses the
success alert, whose only button runs `navigation.popToTop()` — the stack
collapses to its root; the fresh id (`Date.now().toString()` in the
source) is passed in as `newId`. -/
def onAdd (newId : String) (s : ChefState) : ChefState × Option String :=
  if jsTrim s.name = "" ∨ jsTrim s.price = "" then
    (s, some "Please enter a dish name and price.")
  else
    let parsedPrice := jsParseFloat s.price
    if jsIsNaN parsedPrice ∨ jsLtZero parsedPrice then
      (s, some "Please enter a valid price.")
    else
      let newItem : ChefItem :=
        ⟨newId, jsTrim s.name, s.course,
         if s.addOn = "None" then "" else s.addOn,
         jsRound2 parsedPrice⟩
      ({ s with
          menuItems := newItem :: s.menuItems,
          name := "",
          price := "",
          addOn := ADDONS.get ⟨0, by decide⟩,
          course := COURSES.get ⟨0, by decide⟩,
          stack := popToTop s.stack },
       none)

-- --- Screen dispatch (`renderScreen`, `src/App.tsx` lines 634–647) ---

/-- What the application renders for the current frame. The two
missing-item constructors are the placeholder screens the components
return when `route.params.item` is absent (`"No item selected."` in
`SelectedCourseScreen`, lines 484–489, and
`"Error: Missing item for payment."` in `PaymentScreen`, lines 521–526);
`unknownScreen` is the fall-through of `renderScreen`
(`"Unknown screen: ..."`, lines 642–646). -/
inductive Rendered where
  | homeScreen
  | chefScreen
  | guestFilterScreen
  | selectedCourseScreen (item : MenuItem)
  | missingItemScreen
  | paymentScreen (item : MenuItem)
  | missingPaymentScreen
  | unknownScreen (name : ScreenName)
deriving DecidableEq

/-- The screen dispatcher composed with each screen's own missing-item
guard: total over every frame, it never throws. -/
def renderScreen (current : Route) : Rendered :=
  match current.name with
  | .Home => .homeScreen
  | .Chef => .chefScreen
  | .GuestFilter => .guestFilterScreen
  | .SelectedCourse =>
    match current.params with
    | some item => .selectedCourseScreen item
    | none => .missingItemScreen
  | .Payment =>
    match current.params with
    | some item => .paymentScreen item
    | none => .missingPaymentScreen
  | u => .unknownScreen u

-- --- Helper lemmas ---

theorem foldl_add_prices (l : List MenuItem) (a : ℚ) :
    l.foldl (fun s i => s + i.price) a = a + (l.map fun i => i.price).sum := by
  induction l generalizing a with
  | nil => simp
  | cons x xs ih => simp [ih, add_assoc]

theorem navStep_preserves_head (s : List Route) (op : NavOp)
    (h : s.head? = some homeRoute) : (navStep s op).head? = some homeRoute := by
  cases s with
  | nil => simp at h
  | cons a t =>
    simp only [List.head?_cons, Option.some.injEq] at h
    subst h
    cases op with
    | navigate n p => simp [navStep, navigate]
    | goBack =>
      cases t with
      | nil => simp [navStep, goBack]
      | cons b t2 => simp [navStep, goBack, List.dropLast]
    | popToTop => simp [navStep, popToTop]

-- --- C3: the navigation stack invariant ---

/-- C3: for every finite sequence of navigate, goBack and popToTop
operations applied to the initial stack `[{Home, no params}]`, the first
element of the resulting stack is always the root Home frame with no
params, and the stack length is always at least 1. -/
theorem navStack_root_invariant (ops : List NavOp) :
    (runNav ops).head? = some homeRoute ∧ 1 ≤ (runNav ops).length := by
  have key : ∀ (l : List NavOp) (s : List Route), s.head? = some homeRoute →
      (l.foldl navStep s).head? = some homeRoute := by
    intro l
    induction l with
    | nil => exact fun s hs => hs
    | cons op rest ih => exact fun s hs => ih _ (navStep_preserves_head s op hs)
  have h1 : (runNav ops).head? = some homeRoute := key ops [homeRoute] rfl
  refine ⟨h1, ?_⟩
  cases hr : runNav ops with
  | nil => rw [hr] at h1; simp at h1
  | cons a t => simp

-- --- C5: add then remove round-trips the store ---

/-- C5: for every store state and every item whose id is not already
present (the `addItem` precondition), `addItem` followed by `removeItem`
with that item's id returns the store to exactly its prior content. -/
theorem addItem_removeItem_roundtrip (store : List MenuItem) (item : MenuItem)
    (h : ∀ x ∈ store, x.id ≠ item.id) :
    removeItem item.id (addItem item store) = store := by
  rw [addItem, removeItem, List.filter_cons]
  simp only [bne_self_eq_false, Bool.false_eq_true, if_false]
  exact List.filter_eq_self.mpr fun x hx => bne_iff_ne.mpr (h x hx)

/-- Witness for C5 at a concrete store and item. -/
theorem addItem_removeItem_roundtrip_witness :
    removeItem "3" (addItem ⟨"3", "Pizza", "Main", "", 89⟩ seedItems) = seedItems :=
  addItem_removeItem_roundtrip seedItems ⟨"3", "Pizza", "Main", "", 89⟩ (by decide)

-- --- C6: goBack pops exactly one frame, only above the root ---

/-- C6: `goBack` removes exactly the last frame if and only if the stack
has more than one frame, and otherwise leaves the stack unchanged; being
a total function of the stack it never throws; on a stack of length 1,
`goBack (goBack s) = goBack s`. -/
theorem goBack_spec (s : List Route) :
    (1 < s.length → goBack s = s.dropLast ∧ (goBack s).length + 1 = s.length)
    ∧ (s.length ≤ 1 → goBack s = s)
    ∧ (s.length = 1 → goBack (goBack s) = goBack s) := by
  refine ⟨?_, ?_, ?_⟩
  · intro h
    rw [goBack, if_pos h]
    exact ⟨rfl, by rw [List.length_dropLast]; omega⟩
  · intro h
    rw [goBack, if_neg (by omega)]
  · intro h
    have h2 : ¬ 1 < s.length := by omega
    have hin : goBack s = s := by rw [goBack, if_neg h2]
    rw [hin, hin]

/-- Witness for C6 on stacks of length 1 and 2. -/
theorem goBack_spec_witness :
    goBack [homeRoute] = [homeRoute]
    ∧ goBack (goBack [homeRoute]) = goBack [homeRoute]
    ∧ goBack [homeRoute, ⟨.Chef, none⟩] = [homeRoute] :=
  ⟨(goBack_spec [homeRoute]).2.1 (by decide),
   (goBack_spec [homeRoute]).2.2 (by decide),
   by
     have h := (goBack_spec [homeRoute, ⟨.Chef, none⟩]).1 (by decide)
     rw [h.1]
     rfl⟩

-- --- C10: removeItem removes every matching item, even duplicates ---

/-- C10: for every store state, including ones where several items share
an id, `removeItem id` leaves no item with that id, and applying it twice
equals applying it once; a concrete store with a duplicated id is wiped of
both copies. -/
theorem removeItem_spec (store : List MenuItem) (id : String) :
    ((removeItem id store).all fun x => x.id != id) = true
    ∧ removeItem id (removeItem id store) = removeItem id store
    ∧ removeItem "1" [⟨"1", "A", "Main", "", 1⟩, ⟨"1", "B", "Main", "", 2⟩] = [] := by
  refine ⟨?_, ?_, rfl⟩
  · exact List.all_eq_true.mpr fun x hx => (List.mem_filter.mp hx).2
  · rw [removeItem, removeItem, List.filter_filter]
    simp

-- --- C7: overall average price ---

/-- C7: `overallAverage` is a pure function returning the arithmetic mean
of all item prices rounded to 2 decimals, and 0 for an empty collection
(no division by zero); on two items priced 45.0 and 220.0 it returns
132.50. -/
theorem overallAverage_spec (items : List MenuItem) :
    overallAverage items
      = (if items.length = 0 then 0
         else round2 (((items.map fun i => i.price).sum) / items.length))
    ∧ overallAverage [] = 0
    ∧ overallAverage seedItems = 132.50 := by
  refine ⟨?_, rfl, ?_⟩
  · rw [overallAverage, foldl_add_prices, zero_add]
  · have h : overallAverage seedItems = round2 (265 / 2) := by
      norm_num [overallAverage, seedItems]
    rw [h, round2, round_eq]
    norm_num

-- --- C8: the course filter ---

/-- C8: filtering by 'All' returns the input collection unchanged, and
filtering by any of the four courses returns exactly the items whose
course matches, in input order: an order-preserving sublist of the input
whose members all match that course and which keeps every matching item
with its multiplicity. -/
theorem filterByCourse_spec (items : List MenuItem) (c : String) (hc : c ∈ COURSES) :
    filterByCourse items "All" = items
    ∧ (filterByCourse items c).Sublist items
    ∧ (∀ x ∈ filterByCourse items c, x.course = c)
    ∧ (∀ x : MenuItem, x.course = c →
        (filterByCourse items c).count x = items.count x) := by
  have hne : c ≠ "All" := by
    intro h
    subst h
    revert hc
    decide
  refine ⟨by simp [filterByCourse], ?_, ?_, ?_⟩
  · rw [filterByCourse, if_neg hne]
    exact List.filter_sublist items
  · intro x hx
    rw [filterByCourse, if_neg hne] at hx
    exact beq_iff_eq.mp (List.mem_filter.mp hx).2
  · intro x hxc
    rw [filterByCourse, if_neg hne]
    exact List.count_filter (by simp [hxc])

/-- Witness for C8 at the seed store and course 'Main'. -/
theorem filterByCourse_spec_witness :
    filterByCourse seedItems "All" = seedItems
    ∧ (filterByCourse seedItems "Main").Sublist seedItems
    ∧ (filterByCourse seedItems "Main").count ⟨"2", "Grilled Steak", "Main", "Fries", 220⟩
        = seedItems.count ⟨"2", "Grilled Steak", "Main", "Fries", 220⟩ := by
  have h := filterByCourse_spec seedItems "Main" (by decide)
  exact ⟨h.1, h.2.1, h.2.2.2 _ rfl⟩

-- --- C1: per-course counts and averages ---

theorem computeAverages_counts (items : List MenuItem) :
    ((computeAverages items).map fun e => e.count)
      = COURSES.map fun c => items.countP fun it => it.course == c := by
  rw [computeAverages, List.map_map]
  exact List.map_congr_left fun c _ => (List.countP_eq_length_filter _ _).symm

theorem counts_sum (items : List MenuItem) :
    (((computeAverages items).map fun e => e.count).sum)
      = (items.filter fun it => decide (it.course ∈ COURSES)).length := by
  rw [computeAverages_counts]
  induction items with
  | nil => decide
  | cons it rest ih =>
    simp only [COURSES, List.map_cons, List.map_nil, List.sum_cons, List.sum_nil,
      List.countP_cons, List.filter_cons, beq_iff_eq] at ih ⊢
    by_cases h1 : it.course = "Starter" <;> by_cases h2 : it.course = "Main" <;>
      by_cases h3 : it.course = "Dessert" <;> by_cases h4 : it.course = "Beverage" <;>
      simp_all <;> omega

/-- C1 counterexample: an item whose course is not one of the four fixed
courses (here "Soup") is counted in no bucket, so the four counts sum to
0 while the input collection has length 1 — the claimed count-sum equality
fails for item collections with arbitrary course strings. -/
theorem computeAverages_counts_cex :
    ¬ ((((computeAverages [⟨"9", "Combo", "Soup", "", 10⟩]).map fun e => e.count).sum)
        = ([(⟨"9", "Combo", "Soup", "", 10⟩ : MenuItem)]).length) := by
  decide

/-- C1 (amended): `computeAverages` returns exactly 4 entries, one per
fixed course in enumeration order, each carrying the count of matching
items and their mean price rounded to 2 decimals (0 when no item
matches); the 4 counts sum to the number of items whose course lies in
the fixed enumeration — hence to the input length whenever every item's
course is one of the four courses. -/
theorem computeAverages_spec (items : List MenuItem) :
    computeAverages items
      = (COURSES.map fun c =>
          ⟨c,
           if (items.countP fun it => it.course == c) = 0 then 0
           else round2 ((((items.filter fun it => it.course == c).map fun i => i.price).sum)
              / (items.countP fun it => it.course == c)),
           items.countP fun it => it.course == c⟩)
    ∧ (computeAverages items).length = 4
    ∧ (((computeAverages items).map fun e => e.count).sum
        = (items.filter fun it => decide (it.course ∈ COURSES)).length)
    ∧ ((∀ it ∈ items, it.course ∈ COURSES) →
        (((computeAverages items).map fun e => e.count).sum) = items.length) := by
  refine ⟨?_, by simp [computeAverages, COURSES], counts_sum items, ?_⟩
  · rw [computeAverages]
    refine List.map_congr_left fun c _ => ?_
    have hn : (items.countP fun it => it.course == c)
        = (items.filter fun it => it.course == c).length :=
      List.countP_eq_length_filter _ _
    rcases Nat.eq_zero_or_pos (items.filter fun it => it.course == c).length with h0 | hpos
    · simp only [hn, h0, gt_iff_lt, lt_self_iff_false, if_false, if_pos]
      norm_num [round2]
    · simp only [hn, gt_iff_lt, hpos, if_pos, if_neg (Nat.pos_iff_ne_zero.mp hpos)]
      rw [foldl_add_prices, zero_add]
  · intro hall
    rw [counts_sum items,
      List.filter_eq_self.mpr fun a ha => decide_eq_true (hall a ha)]

/-- Witness for C1 at the seed store, whose courses all lie in the fixed
enumeration. -/
theorem computeAverages_spec_witness :
    (computeAverages seedItems).length = 4
    ∧ (((computeAverages seedItems).map fun e => e.count).sum) = seedItems.length := by
  have h := computeAverages_spec seedItems
  exact ⟨h.2.1, h.2.2.2 (by decide)⟩

-- --- C2: chef form validation ---

theorem jsIsNaN_eq_true (p : JsNum) : jsIsNaN p = true ↔ p = .nan := by
  cases p <;> simp [jsIsNaN]

/-- C2 counterexample: the price text "Infinity" parses (`parseFloat`) to
`Infinity`, which is not a finite number, yet the submission is accepted:
`Number.isNaN` is false and `Infinity < 0` is false, so no validation
alert is raised and the store is mutated — refuting the claim that the
form rejects whenever the price does not parse as a non-negative finite
decimal number. -/
theorem onAdd_infinity_cex :
    jsParseFloat "Infinity" = JsNum.inf false
    ∧ (onAdd "9" ⟨"A", "Starter", "Extra Sauce", "Infinity", [], [homeRoute]⟩).2 = none
    ∧ (onAdd "9" ⟨"A", "Starter", "Extra Sauce", "Infinity", [], [homeRoute]⟩).1.menuItems
        ≠ (⟨"A", "Starter", "Extra Sauce", "Infinity", [], [homeRoute]⟩ : ChefState).menuItems := by
  refine ⟨by decide, by decide, by decide⟩

/-- C2 (amended): the chef add-item submission rejects — surfaces a
validation alert and leaves the whole state (form, store, stack)
untouched — if and only if the trimmed name is empty, or the trimmed
price text is empty, or the price text does not parse (`NaN`), or the
parsed value is negative (including `-Infinity`); a price parsing to
`+Infinity` is accepted. -/
theorem onAdd_reject_spec (newId : String) (s : ChefState) :
    ((onAdd newId s).2.isSome
      ↔ (jsTrim s.name = "" ∨ jsTrim s.price = ""
          ∨ jsParseFloat s.price = JsNum.nan ∨ jsLtZero (jsParseFloat s.price) = true))
    ∧ ((onAdd newId s).2.isSome → (onAdd newId s).1 = s) := by
  constructor
  · simp only [onAdd]
    by_cases h1 : jsTrim s.name = "" ∨ jsTrim s.price = ""
    · rw [if_pos h1]
      simp only [Option.isSome_some, true_iff]
      rcases h1 with h | h
      · exact Or.inl h
      · exact Or.inr (Or.inl h)
    · rw [if_neg h1]
      push_neg at h1
      by_cases h2 : jsIsNaN (jsParseFloat s.price) = true ∨ jsLtZero (jsParseFloat s.price) = true
      · rw [if_pos h2]
        simp only [Option.isSome_some, true_iff]
        rcases h2 with h | h
        · exact Or.inr (Or.inr (Or.inl ((jsIsNaN_eq_true _).mp h)))
        · exact Or.inr (Or.inr (Or.inr h))
      · rw [if_neg h2]
        push_neg at h2
        simp only [Option.isSome_none, Bool.false_eq_true, false_iff, not_or]
        exact ⟨h1.1, h1.2, fun hnan => h2.1 ((jsIsNaN_eq_true _).mpr hnan), h2.2⟩
  · simp only [onAdd]
    by_cases h1 : jsTrim s.name = "" ∨ jsTrim s.price = ""
    · rw [if_pos h1]
      exact fun _ => rfl
    · rw [if_neg h1]
      by_cases h2 : jsIsNaN (jsParseFloat s.price) = true ∨ jsLtZero (jsParseFloat s.price) = true
      · rw [if_pos h2]
        exact fun _ => rfl
      · rw [if_neg h2]
        intro h
        simp at h

/-- The rejected-submission scenario of the specification: name
`" Pizza "`, price `"abc"`. -/
def rejectState : ChefState := ⟨" Pizza ", "Starter", "Extra Sauce", "abc", [], [homeRoute]⟩

/-- Witness for C2: the unparsable price "abc" is rejected and the whole
state is left exactly as it was. -/
theorem onAdd_reject_spec_witness :
    (onAdd "9" rejectState).2.isSome = true
    ∧ (onAdd "9" rejectState).1 = rejectState := by
  have h := onAdd_reject_spec "9" rejectState
  have hs : (onAdd "9" rejectState).2.isSome = true :=
    h.1.mpr (Or.inr (Or.inr (Or.inl (by decide))))
  exact ⟨hs, h.2 hs⟩

-- --- C4: successful chef submission ---

/-- C4: when the form passes validation, the submission prepends to the
store a `MenuItem` built from the trimmed name, the chosen course, the
add-on normalised to the empty string exactly when the sentinel "None"
was chosen (the chosen add-on otherwise — an equivalence, since no
offered add-on is the empty string), and the parsed price rounded to 2
decimals; all form fields are reset to their defaults (`''`, `''`,
`Starter`, `Extra Sauce`) and the stack is collapsed to its root frame. -/
theorem onAdd_success_spec (newId : String) (s : ChefState) (r : Route) (rest : List Route)
    (hstack : s.stack = r :: rest)
    (haddon : s.addOn ∈ ADDONS)
    (hname : jsTrim s.name ≠ "")
    (hpricetext : jsTrim s.price ≠ "")
    (hnan : jsParseFloat s.price ≠ JsNum.nan)
    (hneg : jsLtZero (jsParseFloat s.price) = false) :
    (onAdd newId s).2 = none
    ∧ (onAdd newId s).1.menuItems
        = ⟨newId, jsTrim s.name, s.course,
            if s.addOn = "None" then "" else s.addOn,
            jsRound2 (jsParseFloat s.price)⟩ :: s.menuItems
    ∧ ((if s.addOn = "None" then "" else s.addOn) = "" ↔ s.addOn = "None")
    ∧ (onAdd newId s).1.name = ""
    ∧ (onAdd newId s).1.price = ""
    ∧ (onAdd newId s).1.course = "Starter"
    ∧ (onAdd newId s).1.addOn = "Extra Sauce"
    ∧ (onAdd newId s).1.stack = [r] := by
  have hg1 : ¬ (jsTrim s.name = "" ∨ jsTrim s.price = "") := not_or.mpr ⟨hname, hpricetext⟩
  have hg2 : ¬ (jsIsNaN (jsParseFloat s.price) = true
      ∨ jsLtZero (jsParseFloat s.price) = true) :=
    not_or.mpr ⟨fun h => hnan ((jsIsNaN_eq_true _).mp h), by simp [hneg]⟩
  have hiff : (if s.addOn = "None" then "" else s.addOn) = "" ↔ s.addOn = "None" := by
    by_cases hn : s.addOn = "None"
    · simp [hn]
    · rw [if_neg hn]
      simp only [ADDONS, List.mem_cons, List.not_mem_nil, or_false] at haddon
      rcases haddon with h | h | h | h <;> simp [h] at hn ⊢
  simp only [onAdd, if_neg hg1, if_neg hg2]
  refine ⟨?_, ?_, hiff, ?_, ?_, ?_, ?_, ?_⟩ <;> try trivial
  rw [hstack]
  rfl

/-- The successful-submission scenario of the specification: name
"Pizza", price "99.999", course "Main", add-on "None". -/
def pizzaFormState : ChefState :=
  ⟨"Pizza", "Main", "None", "99.999", [], [homeRoute, ⟨.Chef, none⟩]⟩

/-- Witness for C4: "99.999" rounds to 100.00, "None" becomes the empty
string, the form resets and the stack collapses to the root. -/
theorem onAdd_success_spec_witness :
    (onAdd "7" pizzaFormState).2 = none
    ∧ (onAdd "7" pizzaFormState).1.menuItems
        = [⟨"7", "Pizza", "Main", "", JsNum.finite 100⟩]
    ∧ (onAdd "7" pizzaFormState).1.name = ""
    ∧ (onAdd "7" pizzaFormState).1.price = ""
    ∧ (onAdd "7" pizzaFormState).1.course = "Starter"
    ∧ (onAdd "7" pizzaFormState).1.addOn = "Extra Sauce"
    ∧ (onAdd "7" pizzaFormState).1.stack = [homeRoute] := by
  have hparse : jsParseFloat "99.999" = JsNum.finite (99999 / 1000) := by
    rw [show jsParseFloat "99.999"
        = JsNum.finite (decValue 99 ['9', '9', '9'] (false, 0)) from rfl]
    norm_num [decValue, show digitsVal ['9', '9', '9'] = 999 from by decide]
  have h := onAdd_success_spec "7" pizzaFormState homeRoute [⟨.Chef, none⟩] rfl
    (by decide) (by decide) (by decide) (by decide)
    (by rw [show pizzaFormState.price = "99.999" from rfl, hparse]
        simp only [jsLtZero, decide_eq_false_iff_not, not_lt]
        norm_num)
  refine ⟨h.1, ?_, h.2.2.2.1, h.2.2.2.2.1, h.2.2.2.2.2.1,
    h.2.2.2.2.2.2.1, h.2.2.2.2.2.2.2⟩
  rw [h.2.1]
  have hv : jsRound2 (jsParseFloat pizzaFormState.price) = JsNum.finite 100 := by
    rw [show pizzaFormState.price = "99.999" from rfl, hparse]
    simp only [jsRound2]
    rw [round2, round_eq]
    norm_num
  rw [hv]
  rfl

-- --- C9: the screen dispatcher degrades gracefully ---

/-- C9: the dispatcher is total over every frame: a `SelectedCourse` or
`Payment` frame whose params carry no item renders the corresponding
visible missing-item placeholder rather than throwing; a screen name
outside the five dispatched ones renders the unknown-screen placeholder;
and navigation stays functional from such frames — `goBack` pops the
placeholder frame and `popToTop` collapses to the root. -/
theorem renderScreen_spec (fr : Route) (s : List Route) :
    (fr.name = .SelectedCourse → fr.params = none →
      renderScreen fr = .missingItemScreen)
    ∧ (fr.name = .Payment → fr.params = none →
      renderScreen fr = .missingPaymentScreen)
    ∧ (fr.name = .Unknown → renderScreen fr = .unknownScreen .Unknown)
    ∧ (s ≠ [] → goBack (s ++ [fr]) = s)
    ∧ popToTop (homeRoute :: s) = [homeRoute] := by
  refine ⟨?_, ?_, ?_, ?_, rfl⟩
  · intro hn hp
    obtain ⟨n, p⟩ := fr
    cases hn
    cases hp
    rfl
  · intro hn hp
    obtain ⟨n, p⟩ := fr
    cases hn
    cases hp
    rfl
  · intro hn
    obtain ⟨n, p⟩ := fr
    cases hn
    rfl
  · intro hs
    have hpos : 0 < s.length := List.length_pos.mpr hs
    have hlen : 1 < (s ++ [fr]).length := by
      rw [List.length_append]
      simp only [List.length_cons, List.length_nil]
      omega
    rw [goBack, if_pos hlen]
    exact List.dropLast_concat

/-- Witness for C9 at a paramless `SelectedCourse` frame, a paramless
`Payment` frame and an `Unknown` frame above the root. -/
theorem renderScreen_spec_witness :
    renderScreen ⟨.SelectedCourse, none⟩ = .missingItemScreen
    ∧ renderScreen ⟨.Payment, none⟩ = .missingPaymentScreen
    ∧ renderScreen ⟨.Unknown, none⟩ = .unknownScreen .Unknown
    ∧ goBack ([homeRoute] ++ [⟨.SelectedCourse, none⟩]) = [homeRoute]
    ∧ popToTop (homeRoute :: [⟨.SelectedCourse, none⟩]) = [homeRoute] := by
  have h1 := renderScreen_spec ⟨.SelectedCourse, none⟩ [⟨.SelectedCourse, none⟩]
  have h2 := renderScreen_spec ⟨.Payment, none⟩ [homeRoute]
  have h3 := renderScreen_spec ⟨.Unknown, none⟩ [homeRoute]
  exact ⟨h1.1 rfl rfl, h2.2.1 rfl rfl, h3.2.2.1 rfl,
    (renderScreen_spec ⟨.SelectedCourse, none⟩ [homeRoute]).2.2.2.1 (by decide),
    h1.2.2.2.2⟩

end ChristoffelMenu
